import Mathlib

/-!
Verification development for `stream_compare.py`, a Solana DEXTrades
stream-vs-query comparison tool.  The Python source is shallowly embedded:
decoded JSON-ish payload values become the inductive `PyVal`, the normalizer
`parse_trades_from_result` becomes an `Except`-valued function (the `except
Exception: return []` boundary is the `Except.error` channel, collapsed to
`[]` at the top), and the stateful stream / reconciliation loops become
explicit state-passing folds.
-/

namespace StreamCompare

/-! Concrete payloads used by the claim theorems.  They follow the shape
requested by the GraphQL documents in `subscribe_and_collect` and
`run_query_and_compare`:
`{Solana: {DEXTrades: [{Block: {Time}, Transaction: {Signature, Index}, Trade: {Index}}]}}`. -/

/-- Constants from the module header of `stream_compare.py`
(`QUERY_LIMIT = 25_000`, `QUERY_MAX_RETRIES = 4`, `QUERY_RETRY_DELAY = 5`). -/
def QUERY_LIMIT : Nat := 25000

/-- Maximum attempt count per page (`QUERY_MAX_RETRIES = 4`). -/
def QUERY_MAX_RETRIES : Nat := 4

/-- Base delay in seconds between retries (`QUERY_RETRY_DELAY = 5`). -/
def QUERY_RETRY_DELAY : Nat := 5

/-- Model of the decoded Python values a payload can hold: `None`, booleans,
integers, strings, lists, and string-keyed dicts (association lists). -/
inductive PyVal : Type where
  | none : PyVal
  | bool : Bool → PyVal
  | int : Int → PyVal
  | str : String → PyVal
  | list : List PyVal → PyVal
  | dict : List (String × PyVal) → PyVal

/-- Python truthiness (`bool(v)`): `None`, `False`, `0`, `""`, `[]`, and
`{}` are falsy; everything else is truthy. -/
def truthy : PyVal → Bool
  | PyVal.none => false
  | PyVal.bool b => b
  | PyVal.int n => n != 0
  | PyVal.str s => s != ""
  | PyVal.list l => !l.isEmpty
  | PyVal.dict d => !d.isEmpty

/-- Python `a or b`: `a` when truthy, else `b`. -/
def pyOr (a b : PyVal) : PyVal := if truthy a then a else b

/-- Python `v is None`. -/
def isNone : PyVal → Bool
  | PyVal.none => true
  | _ => false

mutual

/-- Python `repr(v)` for the modelled values (containers render their
elements with `repr`, as Python does). -/
def pyRepr : PyVal → String
  | PyVal.none => "None"
  | PyVal.bool b => if b then "True" else "False"
  | PyVal.int n => toString n
  | PyVal.str s => "\x27" ++ s ++ "\x27"
  | PyVal.list l => "[" ++ pyReprList l ++ "]"
  | PyVal.dict d => "\x7b" ++ pyReprDict d ++ "\x7d"

/-- Comma-separated `repr` of list elements. -/
def pyReprList : List PyVal → String
  | [] => ""
  | [v] => pyRepr v
  | v :: vs => pyRepr v ++ ", " ++ pyReprList vs

/-- Comma-separated `repr` of dict entries. -/
def pyReprDict : List (String × PyVal) → String
  | [] => ""
  | [(k, v)] => "\x27" ++ k ++ "\x27: " ++ pyRepr v
  | (k, v) :: es => "\x27" ++ k ++ "\x27: " ++ pyRepr v ++ ", " ++ pyReprDict es

end

/-- Python `str(v)`: strings render verbatim, other values as their `repr`
(for `None`, booleans and integers the two coincide). -/
def pyStr : PyVal → String
  | PyVal.str s => s
  | v => pyRepr v

/-- Python `v.get(k)`: defined (and total) on dicts, where an absent key
yields `None`; on any other value the attribute access raises
(`AttributeError`), modelled as `Except.error`. -/
def pyGet (v : PyVal) (k : String) : Except Unit PyVal :=
  match v with
  | PyVal.dict d => Except.ok ((d.lookup k).getD PyVal.none)
  | _ => Except.error ()

/-- Python `k in v` for a dict. -/
def hasKey (v : PyVal) (k : String) : Bool :=
  match v with
  | PyVal.dict d => d.any (fun e => e.1 == k)
  | _ => false

/-- Python `v[k]` on a dict whose key is known to be present. -/
def getItem (v : PyVal) (k : String) : PyVal :=
  match v with
  | PyVal.dict d => (d.lookup k).getD PyVal.none
  | _ => PyVal.none

/-- Normalized trade record, the dict appended to `out` by
`parse_trades_from_result` (src/stream_compare.py lines 115-120): the raw
`Block.Time` value (or `""`), `str()` of the signature, and the raw
`Transaction.Index` / `Trade.Index` values with `None` replaced by `""`. -/
structure NormRec : Type where
  blocktime : PyVal
  signature : String
  txn_index : PyVal
  trade_index : PyVal

/-- Body of the `for t in trades` loop of `parse_trades_from_result`
(lines 106-120): extract `Block`/`Transaction`/`Trade` sub-dicts (defaulting
to `{}`), read `Time`, `Signature` and the two `Index` fields, and emit a
record when `blocktime and signature is not None` holds.  `Except.error`
models an exception escaping to the function's `except` clause (for example
`.get` on a truthy non-dict). -/
def parseTradeFields (t : PyVal) : Except Unit (Option NormRec) :=
  match pyGet t "Block" with
  | Except.error e => Except.error e
  | Except.ok bRaw =>
  match pyGet t "Transaction" with
  | Except.error e => Except.error e
  | Except.ok txRaw =>
  match pyGet t "Trade" with
  | Except.error e => Except.error e
  | Except.ok trRaw =>
  match pyGet (pyOr bRaw (PyVal.dict [])) "Time" with
  | Except.error e => Except.error e
  | Except.ok timeRaw =>
  match pyGet (pyOr txRaw (PyVal.dict [])) "Signature" with
  | Except.error e => Except.error e
  | Except.ok sigRaw =>
  match pyGet (pyOr txRaw (PyVal.dict [])) "Index" with
  | Except.error e => Except.error e
  | Except.ok txIdx =>
  match pyGet (pyOr trRaw (PyVal.dict [])) "Index" with
  | Except.error e => Except.error e
  | Except.ok trIdx =>
  let blocktime := pyOr timeRaw (PyVal.str "")
  let signature := pyOr sigRaw (PyVal.str "")
  if truthy blocktime && !(isNone signature) then
    Except.ok (some
      { blocktime := blocktime
        signature := pyStr signature
        txn_index := if isNone txIdx then PyVal.str "" else txIdx
        trade_index := if isNone trIdx then PyVal.str "" else trIdx })
  else
    Except.ok Option.none

/-- The `for t in trades` loop itself, accumulating `out`. -/
def parseLoop : List PyVal → List NormRec → Except Unit (List NormRec)
  | [], acc => Except.ok acc
  | t :: ts, acc =>
    match parseTradeFields t with
    | Except.error e => Except.error e
    | Except.ok Option.none => parseLoop ts acc
    | Except.ok (some rec) => parseLoop ts (acc ++ [rec])

/-- Lines 95-121 of `parse_trades_from_result`: reject non-dict `data`,
require a truthy `Solana` entry and a non-`None` `DEXTrades` entry, wrap a
non-list `DEXTrades` in a singleton list, and run the per-trade loop. -/
def parseData (data : PyVal) : Except Unit (List NormRec) :=
  match data with
  | PyVal.dict _ =>
    match pyGet data "Solana" with
    | Except.error e => Except.error e
    | Except.ok solana =>
      if !truthy solana then Except.ok []
      else
        match pyGet solana "DEXTrades" with
        | Except.error e => Except.error e
        | Except.ok trades =>
          if isNone trades then Except.ok []
          else
            let tradesList :=
              match trades with
              | PyVal.list l => l
              | other => [other]
            parseLoop tradesList []
  | _ => Except.ok []

/-- Argument of `parse_trades_from_result`: either a gql `ExecutionResult`
(an object with a `.data` attribute) or a plain decoded value. -/
inductive RawResult : Type where
  | execResult : PyVal → RawResult
  | plain : PyVal → RawResult

/-- Lines 85-94 of `parse_trades_from_result`: an `ExecutionResult` supplies
`.data`; a dict is first unwrapped through an optional `"payload"` envelope
and then `result.get("data") or result` is used; any other value yields
`[]`. -/
def parseAux (r : RawResult) : Except Unit (List NormRec) :=
  match r with
  | RawResult.execResult d => parseData d
  | RawResult.plain v =>
    match v with
    | PyVal.dict _ =>
      let v1 := if hasKey v "payload" then getItem v "payload" else v
      match pyGet v1 "data" with
      | Except.error e => Except.error e
      | Except.ok dv => parseData (pyOr dv v1)
    | _ => Except.ok []

/-- `parse_trades_from_result` (lines 82-123): the whole body sits in a
`try`/`except Exception: return []`, so an escaped exception collapses to
the empty list. -/
def parse_trades_from_result (r : RawResult) : List NormRec :=
  match parseAux r with
  | Except.ok l => l
  | Except.error _ => []

/-- Python `s.replace("Z", "")`: with a single-character pattern this
removes every occurrence of the character `Z`. -/
def removeZ (s : String) : String :=
  String.mk (s.data.filter (fun c => c != 'Z'))

/-- Python `s.strip()`: remove leading and trailing whitespace. -/
def pyStrip (s : String) : String :=
  String.mk (((s.data.dropWhile Char.isWhitespace).reverse.dropWhile
    Char.isWhitespace).reverse)

/-- The inner `to_sec` of `_at_time_boundary` (lines 39-41): strip `Z` and
whitespace, then truncate to the 19-character `YYYY-MM-DDTHH:MM:SS` prefix
when the string is at least that long.  `str(s)` is applied by the caller
of this model where the source applies it inside. -/
def to_sec (s : String) : String :=
  let t := pyStrip (removeZ s)
  if 19 ≤ t.data.length then String.mk (t.data.take 19) else t

/-- `_at_time_boundary` (lines 33-43).  The `blocktime` parameter is the raw
parsed `Block.Time` value (run_query_and_compare passes `row["blocktime"]`
unconverted), so it is modelled as `PyVal`; `not blocktime` is Python
truthiness and `to_sec` begins with `str(s)`, here `pyStr`. -/
def at_time_boundary (blocktime : PyVal) (since till : String) : Bool :=
  if !truthy blocktime || since == "" || till == "" then false
  else
    let bt_sec := to_sec (pyStr blocktime)
    bt_sec == to_sec since || bt_sec == to_sec till

/-- One row of the stream CSV file; the `csv` module writes `str()` of every
cell. -/
structure CsvRow : Type where
  blocktime : String
  signature : String
  txn_index : String
  trade_index : String

/-- `StreamState` (lines 46-53): time range, accepted count, and the
contents of the CSV sink (the `_file`/`_writer` handles are modelled by the
list of rows written so far). -/
structure StreamState : Type where
  min_time : Option String
  max_time : Option String
  count : Nat
  csv_rows : List CsvRow

/-- Fresh `StreamState()` with an opened, empty CSV. -/
def initStreamState : StreamState :=
  { min_time := Option.none, max_time := Option.none, count := 0, csv_rows := [] }

/-- `StreamState.write_trade` (lines 61-73): append the row (cells are
`str()`ed by the csv writer), bump `count`, and update `min_time`/`max_time`
by plain string comparison (`blocktime < self.min_time`,
`blocktime > self.max_time`). -/
def write_trade (st : StreamState) (blocktime signature : String)
    (txn_index trade_index : Int) : StreamState :=
  { st with
    csv_rows := st.csv_rows ++
      [{ blocktime := blocktime, signature := signature,
         txn_index := toString txn_index, trade_index := toString trade_index }]
    count := st.count + 1
    min_time :=
      match st.min_time with
      | Option.none => some blocktime
      | some m => if blocktime < m then some blocktime else some m
    max_time :=
      match st.max_time with
      | Option.none => some blocktime
      | some m => if m < blocktime then some blocktime else some m }

/-- The live leg as a fold of `write_trade` over the accepted records
(blocktime, signature, txn_index, trade_index), starting from a fresh
state — the body of `subscribe_and_collect`'s loop. -/
def collect_stream (l : List (String × String × Int × Int)) : StreamState :=
  l.foldl (fun st a => write_trade st a.1 a.2.1 a.2.2.1 a.2.2.2) initStreamState

/-- The argument `subscribe_and_collect` passes to `write_trade` for an
index field: `row.get("txn_index") or 0` (lines 155-156), so the empty
string placeholder for a missing index becomes the integer `0`. -/
def subscribe_index_arg (v : PyVal) : PyVal := pyOr v (PyVal.int 0)

/-- Key a stream-leg record gets in `stream_keys` (lines 207-213), tracing
the full path of a normalized record: `subscribe_and_collect` passes
`row.get("txn_index") or 0` and `row.get("trade_index") or 0` to
`write_trade`, the csv writer stores `str()` of each cell, and the reader
builds `(row["signature"], str(cell), str(cell))` from the already-string
cells. -/
def stream_key_of (r : NormRec) : String × String × String :=
  (r.signature, pyStr (subscribe_index_arg r.txn_index),
    pyStr (subscribe_index_arg r.trade_index))

/-- Key built for a query record at line 286:
`(row["signature"], str(row.get("txn_index", "")), str(row.get("trade_index", "")))`;
the parsed dict always carries both keys, so the defaults never fire. -/
def query_key (r : NormRec) : String × String × String :=
  (r.signature, pyStr r.txn_index, pyStr r.trade_index)

/-- Per-record reconciliation outcome (spec section 3). -/
inductive Outcome : Type where
  | matched : Outcome
  | boundary_excluded : Outcome
  | missed : Outcome
deriving DecidableEq, BEq

/-- Classification of one query record by lines 286-292: membership of its
key in `stream_keys`, then the time-boundary test. -/
def classify (ks : List (String × String × String)) (since till : String)
    (r : NormRec) : Outcome :=
  if query_key r ∈ ks then Outcome.matched
  else if at_time_boundary r.blocktime since till then Outcome.boundary_excluded
  else Outcome.missed

/-- Mutable state of `run_query_and_compare`'s reconciliation loop
(lines 236-241 and the two csv sinks): counters, first/last result times,
and the rows written to the query and mismatch sinks. -/
structure QStats : Type where
  total_query_count : Nat
  boundary_excluded_count : Nat
  mismatch_count : Nat
  first_result_time : Option PyVal
  last_result_time : Option PyVal
  query_rows : List NormRec
  mismatch_rows : List NormRec

/-- Counter state at the start of `run_query_and_compare`. -/
def initQStats : QStats :=
  { total_query_count := 0, boundary_excluded_count := 0, mismatch_count := 0,
    first_result_time := Option.none, last_result_time := Option.none,
    query_rows := [], mismatch_rows := [] }

/-- Body of `for row in rows` (lines 273-292): bump the total, track
first/last result times, append the row to the query sink, then classify:
a key found in `stream_keys` needs no action, otherwise the boundary test
decides between `boundary_excluded_count` and a mismatch (counted and
written to the mismatch sink). -/
def reconStep (ks : List (String × String × String)) (since till : String)
    (st : QStats) (r : NormRec) : QStats :=
  let st1 :=
    { st with
      total_query_count := st.total_query_count + 1
      first_result_time :=
        match st.first_result_time with
        | Option.none => some r.blocktime
        | some t => some t
      last_result_time := some r.blocktime
      query_rows := st.query_rows ++ [r] }
  if query_key r ∈ ks then st1
  else if at_time_boundary r.blocktime since till then
    { st1 with boundary_excluded_count := st1.boundary_excluded_count + 1 }
  else
    { st1 with
      mismatch_count := st1.mismatch_count + 1
      mismatch_rows := st1.mismatch_rows ++ [r] }

/-- The `while True` pagination loop (lines 251-297) over an abstract page
source `pages : offset ↦ normalized records of that page` (the fetch with
retry is modelled separately by `query_with_retry`).  Returns the final
state and the list of offsets requested.  An empty page stops before
processing; a short page stops after processing; otherwise the offset
advances by `QUERY_LIMIT`.  `fuel` bounds the number of iterations
observed, since the source loop has no structural bound. -/
def runQueryLoop (pages : Nat → List NormRec)
    (ks : List (String × String × String)) (since till : String) :
    Nat → Nat → QStats → QStats × List Nat
  | 0, _, st => (st, [])
  | fuel + 1, offset, st =>
    let rows := pages offset
    if rows.isEmpty then (st, [offset])
    else
      let st1 := rows.foldl (reconStep ks since till) st
      if rows.length < QUERY_LIMIT then (st1, [offset])
      else
        let r := runQueryLoop pages ks since till fuel (offset + QUERY_LIMIT) st1
        (r.1, offset :: r.2)

/-- The per-page retry loop (lines 254-269): up to `QUERY_MAX_RETRIES`
attempts; `f attempt = some page` models `client.execute` succeeding,
`none` a transient connection-level exception.  On failure before the last
attempt a delay of `QUERY_RETRY_DELAY * (attempt + 1)` seconds is slept
(collected in the returned list); failing the last attempt re-raises,
modelled as `Option.none`. -/
def queryRetryAux {α : Type} (f : Nat → Option α) :
    Nat → Nat → Option (α × List Nat)
  | 0, _ => Option.none
  | fuel + 1, attempt =>
    match f attempt with
    | some p => some (p, [])
    | Option.none =>
      if attempt < QUERY_MAX_RETRIES - 1 then
        match queryRetryAux f fuel (attempt + 1) with
        | some (p, ds) => some (p, QUERY_RETRY_DELAY * (attempt + 1) :: ds)
        | Option.none => Option.none
      else Option.none

/-- One page fetch with the retry policy of lines 254-269. -/
def query_with_retry {α : Type} (f : Nat → Option α) : Option (α × List Nat) :=
  queryRetryAux f QUERY_MAX_RETRIES 0

/-- The missing-share computation of lines 309-311: guarded by
`total_query_count > 0`, otherwise not computed.  The source prints
`100.0 * mismatch_count / total_query_count` with float arithmetic; the
value is modelled exactly in `ℚ`. -/
def missing_share (st : QStats) : Option ℚ :=
  if 0 < st.total_query_count then
    some (100 * (st.mismatch_count : ℚ) / (st.total_query_count : ℚ))
  else Option.none

/-- Trade with signature `B` and explicit zero indices. -/
def tradeB : PyVal :=
  PyVal.dict
    [("Block", PyVal.dict [("Time", PyVal.str "2024-01-01T00:00:05")]),
     ("Transaction", PyVal.dict [("Signature", PyVal.str "B"), ("Index", PyVal.int 0)]),
     ("Trade", PyVal.dict [("Index", PyVal.int 0)])]

/-- Trade with signature `A` and both index fields absent upstream. -/
def tradeA : PyVal :=
  PyVal.dict
    [("Block", PyVal.dict [("Time", PyVal.str "2024-01-01T00:00:07")]),
     ("Transaction", PyVal.dict [("Signature", PyVal.str "A")]),
     ("Trade", PyVal.dict [])]

/-- Trade with signature `C` and indices 1 and 2. -/
def tradeC : PyVal :=
  PyVal.dict
    [("Block", PyVal.dict [("Time", PyVal.str "2024-01-01T00:00:10")]),
     ("Transaction", PyVal.dict [("Signature", PyVal.str "C"), ("Index", PyVal.int 1)]),
     ("Trade", PyVal.dict [("Index", PyVal.int 2)])]

/-- A subscription result delivering trades B, A, C. -/
def rawStreamC1 : RawResult :=
  RawResult.execResult
    (PyVal.dict [("Solana", PyVal.dict [("DEXTrades", PyVal.list [tradeB, tradeA, tradeC])])])

/-- A query result returning exactly the `A` trade again. -/
def rawQueryC1 : RawResult :=
  RawResult.execResult
    (PyVal.dict [("Solana", PyVal.dict [("DEXTrades", PyVal.list [tradeA])])])

/-- Normalized record of `tradeB`. -/
def recB : NormRec :=
  { blocktime := PyVal.str "2024-01-01T00:00:05", signature := "B",
    txn_index := PyVal.int 0, trade_index := PyVal.int 0 }

/-- Normalized record of `tradeA`: the absent indices surface as `""`. -/
def recA : NormRec :=
  { blocktime := PyVal.str "2024-01-01T00:00:07", signature := "A",
    txn_index := PyVal.str "", trade_index := PyVal.str "" }

/-- Normalized record of `tradeC`. -/
def recC : NormRec :=
  { blocktime := PyVal.str "2024-01-01T00:00:10", signature := "C",
    txn_index := PyVal.int 1, trade_index := PyVal.int 2 }

/-- Trade used for claim C2: `Transaction.Index` absent, `Trade.Index`
explicitly `null`. -/
def tradeMissingIdx : PyVal :=
  PyVal.dict
    [("Block", PyVal.dict [("Time", PyVal.str "2024-01-01T00:00:05")]),
     ("Transaction", PyVal.dict [("Signature", PyVal.str "S")]),
     ("Trade", PyVal.dict [("Index", PyVal.none)])]

/-- Payload wrapping `tradeMissingIdx`. -/
def rawMissingIdxC2 : RawResult :=
  RawResult.execResult
    (PyVal.dict [("Solana", PyVal.dict [("DEXTrades", PyVal.list [tradeMissingIdx])])])

/-- Normalized record of `tradeMissingIdx`. -/
def recMissingIdx : NormRec :=
  { blocktime := PyVal.str "2024-01-01T00:00:05", signature := "S",
    txn_index := PyVal.str "", trade_index := PyVal.str "" }

/-- The raw `Transaction.Index` value a trade element `t` presents to the
normalizer: `tx.get("Index")` with `tx = t.get("Transaction") or {}`
(lines 108 and 112). -/
def txn_index_of (t : PyVal) : Except Unit PyVal :=
  match pyGet t "Transaction" with
  | Except.error e => Except.error e
  | Except.ok txRaw => pyGet (pyOr txRaw (PyVal.dict [])) "Index"

/-- The raw `Trade.Index` value a trade element `t` presents to the
normalizer: `trade.get("Index")` with `trade = t.get("Trade") or {}`
(lines 109 and 113). -/
def trade_index_of (t : PyVal) : Except Unit PyVal :=
  match pyGet t "Trade" with
  | Except.error e => Except.error e
  | Except.ok trRaw => pyGet (pyOr trRaw (PyVal.dict [])) "Index"

/-- Trade whose `Transaction` object has no `Signature` field. -/
def tradeNoSig : PyVal :=
  PyVal.dict
    [("Block", PyVal.dict [("Time", PyVal.str "2024-01-01T00:00:05")]),
     ("Transaction", PyVal.dict []),
     ("Trade", PyVal.dict [])]

/-- Payload wrapping `tradeNoSig`. -/
def rawNoSigC3 : RawResult :=
  RawResult.execResult
    (PyVal.dict [("Solana", PyVal.dict [("DEXTrades", PyVal.list [tradeNoSig])])])

/-- Trade with an empty `Block.Time` and a present signature. -/
def tradeNoTime : PyVal :=
  PyVal.dict
    [("Block", PyVal.dict [("Time", PyVal.str "")]),
     ("Transaction", PyVal.dict [("Signature", PyVal.str "S")]),
     ("Trade", PyVal.dict [])]

/-- Payload wrapping `tradeNoTime`. -/
def rawNoTimeC3 : RawResult :=
  RawResult.execResult
    (PyVal.dict [("Solana", PyVal.dict [("DEXTrades", PyVal.list [tradeNoTime])])])

/-- Conservation invariant of the reconciliation loop: the total equals the
number of processed records classified `matched` plus the two explicit
counters. -/
def conserved (ks : List (String × String × String)) (since till : String)
    (st : QStats) : Prop :=
  st.total_query_count =
    st.query_rows.countP (fun r => classify ks since till r == Outcome.matched)
      + st.boundary_excluded_count + st.mismatch_count

/-- Claim C1.  The same logical event — signature `A`, `txn_index` and
`trade_index` absent upstream on both legs, hence spec identity key
`("A", 0, 0)` — is delivered by the subscription (so it is in the live
index) and returned by the query, with a blocktime strictly inside the
window, yet the reconciler classifies it `missed` and counts a mismatch:
the live CSV key is `("A", "0", "0")` (after `row.get(...) or 0` and the
csv round-trip) while the query-side key is `("A", "", "")` (built from the
uncoerced parsed value), so the membership test fails.  This refutes the
claim that records with the same identity key are classified `matched`
also when an index was absent upstream. -/
theorem c1_same_key_not_matched :
    parse_trades_from_result rawStreamC1 = [recB, recA, recC] ∧
    parse_trades_from_result rawQueryC1 = [recA] ∧
    stream_key_of recA = ("A", "0", "0") ∧
    query_key recA = ("A", "", "") ∧
    classify (List.map stream_key_of [recB, recA, recC])
      "2024-01-01T00:00:05" "2024-01-01T00:00:10" recA = Outcome.missed ∧
    (reconStep (List.map stream_key_of [recB, recA, recC])
      "2024-01-01T00:00:05" "2024-01-01T00:00:10" initQStats recA).mismatch_count = 1 :=
  ⟨rfl, rfl, rfl, rfl, rfl, rfl⟩

/-- Claim C2, counterexample.  A record whose `Transaction.Index` is absent
and whose `Trade.Index` is `null` is accepted by the normalizer, but the
normalized record carries the empty string, not the integer `0`, for both
fields. -/
theorem c2_missing_index_not_zero :
    parse_trades_from_result rawMissingIdxC2 = [recMissingIdx] ∧
    ¬ (recMissingIdx.txn_index = PyVal.int 0) ∧
    ¬ (recMissingIdx.trade_index = PyVal.int 0) :=
  ⟨rfl, fun h => PyVal.noConfusion h, fun h => PyVal.noConfusion h⟩

/-- A record accepted by the per-trade normalizer body is fully determined
by the raw field lookups: every `.get` succeeded, the blocktime was truthy,
and the record's fields are the source expressions of lines 115-120. -/
theorem parseTradeFields_char (t : PyVal) (r : NormRec)
    (h : parseTradeFields t = Except.ok (some r)) :
    ∃ bRaw txRaw trRaw timeRaw sigRaw txIdx trIdx,
      pyGet t "Block" = Except.ok bRaw ∧
      pyGet t "Transaction" = Except.ok txRaw ∧
      pyGet t "Trade" = Except.ok trRaw ∧
      pyGet (pyOr bRaw (PyVal.dict [])) "Time" = Except.ok timeRaw ∧
      pyGet (pyOr txRaw (PyVal.dict [])) "Signature" = Except.ok sigRaw ∧
      pyGet (pyOr txRaw (PyVal.dict [])) "Index" = Except.ok txIdx ∧
      pyGet (pyOr trRaw (PyVal.dict [])) "Index" = Except.ok trIdx ∧
      truthy (pyOr timeRaw (PyVal.str "")) = true ∧
      r = { blocktime := pyOr timeRaw (PyVal.str ""),
            signature := pyStr (pyOr sigRaw (PyVal.str "")),
            txn_index := if isNone txIdx then PyVal.str "" else txIdx,
            trade_index := if isNone trIdx then PyVal.str "" else trIdx } := by
  unfold parseTradeFields at h
  split at h
  · exact Except.noConfusion h
  next bRaw hb =>
  split at h
  · exact Except.noConfusion h
  next txRaw htx =>
  split at h
  · exact Except.noConfusion h
  next trRaw htr =>
  split at h
  · exact Except.noConfusion h
  next timeRaw htime =>
  split at h
  · exact Except.noConfusion h
  next sigRaw hsig =>
  split at h
  · exact Except.noConfusion h
  next txIdx hti =>
  split at h
  · exact Except.noConfusion h
  next trIdx htri =>
  simp only at h
  split at h
  next hcond =>
    rw [Bool.and_eq_true] at hcond
    refine ⟨bRaw, txRaw, trRaw, timeRaw, sigRaw, txIdx, trIdx,
      hb, htx, htr, htime, hsig, hti, htri, hcond.1, ?_⟩
    have h1 := Except.ok.inj h
    have h2 := Option.some.inj h1
    exact h2.symm
  next hcond =>
    exact Option.noConfusion (Except.ok.inj h)

/-- Every record produced by the trade loop was either in the accumulator
already or emitted for one of the trade elements. -/
theorem parseLoop_mem : ∀ (ts : List PyVal) (acc out : List NormRec),
    parseLoop ts acc = Except.ok out → ∀ r ∈ out,
      r ∈ acc ∨ ∃ t, parseTradeFields t = Except.ok (some r)
  | [], acc, out, h, r, hr => by
      unfold parseLoop at h
      exact Or.inl (Except.ok.inj h ▸ hr)
  | t :: ts, acc, out, h, r, hr => by
      unfold parseLoop at h
      split at h
      · exact Except.noConfusion h
      · exact parseLoop_mem ts acc out h r hr
      next rec hrec =>
        rcases parseLoop_mem ts (acc ++ [rec]) out h r hr with hmem | hex
        · rcases List.mem_append.mp hmem with hacc | hsing
          · exact Or.inl hacc
          · exact Or.inr ⟨t, List.mem_singleton.mp hsing ▸ hrec⟩
        · exact Or.inr hex

/-- Every record returned by `parseData` was emitted by the per-trade
normalizer body for some trade element. -/
theorem parseData_mem (d : PyVal) (l : List NormRec)
    (h : parseData d = Except.ok l) (r : NormRec) (hr : r ∈ l) :
    ∃ t, parseTradeFields t = Except.ok (some r) := by
  unfold parseData at h
  split at h
  case h_2 => cases Except.ok.inj h; exact absurd hr (List.not_mem_nil r)
  case h_1 =>
    split at h
    · exact Except.noConfusion h
    · split at h
      · cases Except.ok.inj h; exact absurd hr (List.not_mem_nil r)
      · split at h
        · exact Except.noConfusion h
        · split at h
          · cases Except.ok.inj h; exact absurd hr (List.not_mem_nil r)
          · rcases parseLoop_mem _ _ _ h r hr with hmem | hex
            · exact absurd hmem (List.not_mem_nil r)
            · exact hex

/-- Every record returned by `parse_trades_from_result` was emitted by the
per-trade normalizer body for some trade element. -/
theorem parse_mem (raw : RawResult) (r : NormRec)
    (h : r ∈ parse_trades_from_result raw) :
    ∃ t, parseTradeFields t = Except.ok (some r) := by
  unfold parse_trades_from_result at h
  split at h
  case h_2 => exact absurd h (List.not_mem_nil r)
  case h_1 l hl =>
    unfold parseAux at hl
    split at hl
    · exact parseData_mem _ _ hl r h
    next v =>
      split at hl
      · simp only at hl
        split at hl
        · exact Except.noConfusion hl
        · exact parseData_mem _ _ hl r h
      · cases Except.ok.inj hl
        exact absurd h (List.not_mem_nil r)

/-- Every record emitted by the normalizer has a truthy (in particular
non-empty) blocktime, because of the `if blocktime and ...` guard. -/
theorem parse_truthy (raw : RawResult) (r : NormRec)
    (h : r ∈ parse_trades_from_result raw) : truthy r.blocktime = true := by
  obtain ⟨t, ht⟩ := parse_mem raw r h
  obtain ⟨bRaw, txRaw, trRaw, timeRaw, sigRaw, txIdx, trIdx,
    _, _, _, _, _, _, _, htruthy, hrec⟩ := parseTradeFields_char t r ht
  rw [hrec]
  exact htruthy

/-- Claim C2, amended.  A record accepted by the normalizer whose
`Transaction.Index` (resp. `Trade.Index`) is missing or `null` carries the
empty string — not the integer `0` — for that field; the integer `0` enters
only through the live collector's `row.get(...) or 0` argument
(`subscribe_index_arg`), which maps the empty string to `0`. -/
theorem c2_missing_index_empty_string (t : PyVal) (r : NormRec)
    (h : parseTradeFields t = Except.ok (some r)) :
    (txn_index_of t = Except.ok PyVal.none → r.txn_index = PyVal.str "") ∧
    (trade_index_of t = Except.ok PyVal.none → r.trade_index = PyVal.str "") ∧
    subscribe_index_arg (PyVal.str "") = PyVal.int 0 := by
  obtain ⟨bRaw, txRaw, trRaw, timeRaw, sigRaw, txIdx, trIdx,
    hb, htx, htr, htime, hsig, hti, htri, htruthy, hrec⟩ := parseTradeFields_char t r h
  refine ⟨?_, ?_, rfl⟩
  · intro hmiss
    unfold txn_index_of at hmiss
    rw [htx] at hmiss
    simp only at hmiss
    rw [hti] at hmiss
    have hnone : txIdx = PyVal.none := Except.ok.inj hmiss
    rw [hrec]
    simp [hnone, isNone]
  · intro hmiss
    unfold trade_index_of at hmiss
    rw [htr] at hmiss
    simp only at hmiss
    rw [htri] at hmiss
    have hnone : trIdx = PyVal.none := Except.ok.inj hmiss
    rw [hrec]
    simp [hnone, isNone]

/-- Witness for `c2_missing_index_empty_string` at the concrete trade with
a missing `Transaction.Index` and a `null` `Trade.Index`. -/
theorem c2_missing_index_empty_string_witness :
    recMissingIdx.txn_index = PyVal.str "" ∧
    recMissingIdx.trade_index = PyVal.str "" ∧
    subscribe_index_arg (PyVal.str "") = PyVal.int 0 :=
  have h := c2_missing_index_empty_string tradeMissingIdx recMissingIdx rfl
  ⟨h.1 rfl, h.2.1 rfl, h.2.2⟩

/-- Claim C3.  A trade whose `Transaction` carries no `Signature` is NOT
discarded: the normalizer emits a record with `signature = ""`, because
`signature = tx.get("Signature") or ""` makes the subsequent
`signature is not None` check vacuously true.  (The empty-blocktime half of
the claim does hold: the second conjunct shows such a record is silently
dropped.) -/
theorem c3_absent_signature_record_emitted :
    parse_trades_from_result rawNoSigC3 =
      [{ blocktime := PyVal.str "2024-01-01T00:00:05", signature := "",
         txn_index := PyVal.str "", trade_index := PyVal.str "" }] ∧
    parse_trades_from_result rawNoTimeC3 = [] :=
  ⟨rfl, rfl⟩

/-- Claim C4.  A query record (i.e. a record emitted by the normalizer,
hence with truthy blocktime) whose key is absent from the live index and
whose second-truncated blocktime equals the truncation of `since` or of
`till` is classified `boundary_excluded`: it is not `missed`, the mismatch
counter is untouched and nothing is written to the mismatch sink. -/
theorem c4_boundary_excluded_never_missed
    (raw : RawResult) (r : NormRec) (ks : List (String × String × String))
    (since till : String) (st : QStats)
    (hmem : r ∈ parse_trades_from_result raw)
    (habs : query_key r ∉ ks)
    (hs : since ≠ "") (ht : till ≠ "")
    (hb : to_sec (pyStr r.blocktime) = to_sec since ∨
          to_sec (pyStr r.blocktime) = to_sec till) :
    classify ks since till r = Outcome.boundary_excluded ∧
    classify ks since till r ≠ Outcome.missed ∧
    (reconStep ks since till st r).boundary_excluded_count = st.boundary_excluded_count + 1 ∧
    (reconStep ks since till st r).mismatch_count = st.mismatch_count ∧
    (reconStep ks since till st r).mismatch_rows = st.mismatch_rows := by
  have htrue : truthy r.blocktime = true := parse_truthy raw r hmem
  have hbd : at_time_boundary r.blocktime since till = true := by
    unfold at_time_boundary
    rw [htrue]
    have h1 : (since == "") = false := beq_eq_false_iff_ne.mpr hs
    have h2 : (till == "") = false := beq_eq_false_iff_ne.mpr ht
    simp only [h1, h2, Bool.not_true, Bool.false_or, Bool.or_false]
    rw [if_neg Bool.false_ne_true]
    simp only [Bool.or_eq_true, beq_iff_eq]
    exact hb
  have hcls : classify ks since till r = Outcome.boundary_excluded := by
    unfold classify
    rw [if_neg habs, if_pos hbd]
  refine ⟨hcls, ?_, ?_, ?_, ?_⟩
  · rw [hcls]; exact fun hx => Outcome.noConfusion hx
  · unfold reconStep
    rw [if_neg habs, if_pos hbd]
  · unfold reconStep
    rw [if_neg habs, if_pos hbd]
  · unfold reconStep
    rw [if_neg habs, if_pos hbd]

/-- Witness for `c4_boundary_excluded_never_missed`: the `A` record of
`rawQueryC1`, with an empty live index and a window opening at its
blocktime. -/
theorem c4_boundary_excluded_never_missed_witness :
    classify [] "2024-01-01T00:00:07" "2024-01-01T00:00:09" recA =
      Outcome.boundary_excluded ∧
    (reconStep [] "2024-01-01T00:00:07" "2024-01-01T00:00:09" initQStats recA).mismatch_count = 0 := by
  have h := c4_boundary_excluded_never_missed rawQueryC1 recA []
    "2024-01-01T00:00:07" "2024-01-01T00:00:09" initQStats
    (by rw [show parse_trades_from_result rawQueryC1 = [recA] from rfl]
        exact List.mem_singleton.mpr rfl)
    (List.not_mem_nil _) (by decide) (by decide) (Or.inl rfl)
  exact ⟨h.1, by rw [h.2.2.2.1]; rfl⟩

/-- One reconciliation step preserves `conserved`: the record lands in
exactly one of the three classes. -/
theorem conserved_step (ks : List (String × String × String)) (since till : String)
    (st : QStats) (r : NormRec) (h : conserved ks since till st) :
    conserved ks since till (reconStep ks since till st r) := by
  unfold conserved at h ⊢
  unfold reconStep
  by_cases hm : query_key r ∈ ks
  · rw [if_pos hm]
    have hc : classify ks since till r = Outcome.matched := by
      unfold classify; rw [if_pos hm]
    have hb1 : (Outcome.matched == Outcome.matched) = true := rfl
    simp [List.countP_append, List.countP_cons, hc, hb1, h]
    omega
  · rw [if_neg hm]
    by_cases hbd : at_time_boundary r.blocktime since till = true
    · rw [if_pos hbd]
      have hc : classify ks since till r = Outcome.boundary_excluded := by
        unfold classify; rw [if_neg hm, if_pos hbd]
      have hb1 : (Outcome.boundary_excluded == Outcome.matched) = false := rfl
      simp [List.countP_append, List.countP_cons, hc, hb1, h]
      omega
    · rw [if_neg hbd]
      have hc : classify ks since till r = Outcome.missed := by
        unfold classify; rw [if_neg hm, if_neg hbd]
      have hb1 : (Outcome.missed == Outcome.matched) = false := rfl
      simp [List.countP_append, List.countP_cons, hc, hb1, h]
      omega

/-- `conserved` is preserved by any run of reconciliation steps. -/
theorem conserved_foldl (ks : List (String × String × String)) (since till : String) :
    ∀ (l : List NormRec) (st : QStats), conserved ks since till st →
      conserved ks since till (l.foldl (reconStep ks since till) st)
  | [], _, h => h
  | r :: rs, st, h =>
      conserved_foldl ks since till rs (reconStep ks since till st r)
        (conserved_step ks since till st r h)

/-- Unfolding equation of the pagination loop for positive fuel. -/
theorem runQueryLoop_succ (pages : Nat → List NormRec)
    (ks : List (String × String × String)) (since till : String)
    (fuel offset : Nat) (st : QStats) :
    runQueryLoop pages ks since till (fuel + 1) offset st =
      if (pages offset).isEmpty then (st, [offset])
      else if (pages offset).length < QUERY_LIMIT then
        ((pages offset).foldl (reconStep ks since till) st, [offset])
      else
        ((runQueryLoop pages ks since till fuel (offset + QUERY_LIMIT)
            ((pages offset).foldl (reconStep ks since till) st)).1,
          offset ::
            (runQueryLoop pages ks since till fuel (offset + QUERY_LIMIT)
              ((pages offset).foldl (reconStep ks since till) st)).2) := rfl

/-- `conserved` is preserved by the whole pagination loop. -/
theorem conserved_runLoop (pages : Nat → List NormRec)
    (ks : List (String × String × String)) (since till : String) :
    ∀ (fuel offset : Nat) (st : QStats), conserved ks since till st →
      conserved ks since till (runQueryLoop pages ks since till fuel offset st).1
  | 0, _, _, h => h
  | fuel + 1, offset, st, h => by
      rw [runQueryLoop_succ]
      split
      · exact h
      · split
        · exact conserved_foldl ks since till _ st h
        · exact conserved_runLoop pages ks since till fuel (offset + QUERY_LIMIT) _
            (conserved_foldl ks since till _ st h)

/-- Claim C5.  After processing any prefix of the query records — and in
particular after the full pagination loop of every complete run —
`total_query_count` equals the number of records classified `matched` plus
`boundary_excluded_count` plus `mismatch_count`. -/
theorem c5_conservation :
    (∀ (ks : List (String × String × String)) (since till : String)
        (l : List NormRec),
      conserved ks since till (l.foldl (reconStep ks since till) initQStats)) ∧
    (∀ (ks : List (String × String × String)) (since till : String)
        (pages : Nat → List NormRec) (fuel offset : Nat),
      conserved ks since till (runQueryLoop pages ks since till fuel offset initQStats).1) := by
  have hinit : ∀ ks since till, conserved ks since till initQStats := by
    intro ks since till; unfold conserved initQStats; simp
  exact ⟨fun ks since till l =>
      conserved_foldl ks since till l initQStats (hinit ks since till),
    fun ks since till pages fuel offset =>
      conserved_runLoop pages ks since till fuel offset initQStats (hinit ks since till)⟩

/-- Claim C7.  A page fetch that fails transiently on attempts
`0 … QUERY_MAX_RETRIES - 2` and succeeds on the last attempt is accepted,
after sleeping `QUERY_RETRY_DELAY * n` before retry number `n`; a fetch
that fails on all `QUERY_MAX_RETRIES` attempts re-raises and aborts the
run (`Option.none`). -/
theorem c7_retry_bound :
    (∀ (α : Type) (f : Nat → Option α) (p : α),
        (∀ i, i < QUERY_MAX_RETRIES - 1 → f i = Option.none) →
        f (QUERY_MAX_RETRIES - 1) = some p →
        query_with_retry f =
          some (p, [QUERY_RETRY_DELAY * 1, QUERY_RETRY_DELAY * 2, QUERY_RETRY_DELAY * 3])) ∧
    (∀ (α : Type) (f : Nat → Option α),
        (∀ i, i < QUERY_MAX_RETRIES → f i = Option.none) →
        query_with_retry f = Option.none) := by
  constructor
  · intro α f p hfail hsucc
    have h0 := hfail 0 (by decide)
    have h1 := hfail 1 (by decide)
    have h2 := hfail 2 (by decide)
    have h3 : f 3 = some p := hsucc
    simp [query_with_retry, queryRetryAux, QUERY_MAX_RETRIES, QUERY_RETRY_DELAY,
      h0, h1, h2, h3]
  · intro α f hfail
    have h0 := hfail 0 (by decide)
    have h1 := hfail 1 (by decide)
    have h2 := hfail 2 (by decide)
    have h3 := hfail 3 (by decide)
    simp [query_with_retry, queryRetryAux, QUERY_MAX_RETRIES, h0, h1, h2, h3]

/-- Witness for `c7_retry_bound`: a fetch failing on attempts 0-2 and
succeeding on attempt 3 is accepted with delays 5, 10, 15; one failing on
all four attempts aborts. -/
theorem c7_retry_bound_witness :
    query_with_retry (fun i => if i == 3 then some 42 else Option.none) =
      some (42, [QUERY_RETRY_DELAY * 1, QUERY_RETRY_DELAY * 2, QUERY_RETRY_DELAY * 3]) ∧
    query_with_retry (fun _ => (Option.none : Option Nat)) = Option.none :=
  ⟨c7_retry_bound.1 Nat (fun i => if i == 3 then some 42 else Option.none) 42
      (fun i hi => by
        have hi3 : i < 3 := hi
        interval_cases i <;> rfl) rfl,
    c7_retry_bound.2 Nat (fun _ => Option.none) (fun i _ => rfl)⟩

/-- Claim C8.  The missing-share percentage is computed only under the
`total_query_count > 0` guard; with a zero total it is skipped, so the
divisor is non-zero whenever the division is performed. -/
theorem c8_missing_share_guard (st : QStats) :
    (st.total_query_count = 0 → missing_share st = Option.none) ∧
    (0 < st.total_query_count →
      missing_share st =
        some (100 * (st.mismatch_count : ℚ) / (st.total_query_count : ℚ)) ∧
      (st.total_query_count : ℚ) ≠ 0) := by
  constructor
  · intro h
    unfold missing_share
    rw [if_neg (by omega)]
  · intro h
    refine ⟨?_, ?_⟩
    · unfold missing_share
      rw [if_pos h]
    · exact Nat.cast_ne_zero.mpr (by omega)

/-- Witness for `c8_missing_share_guard`: with 4 query records and 1
mismatch the share is 25%; with zero records it is not computed. -/
theorem c8_missing_share_guard_witness :
    missing_share { initQStats with total_query_count := 4, mismatch_count := 1 } =
      some 25 ∧
    missing_share initQStats = Option.none := by
  constructor
  · have h := (c8_missing_share_guard
      { initQStats with total_query_count := 4, mismatch_count := 1 }).2 (by decide)
    rw [h.1]
    norm_num
  · exact (c8_missing_share_guard initQStats).1 rfl

/-- Characterization of the pagination loop: if the pages at offsets
`offset, offset+L, …, offset+(k-1)L` are full and the page at `offset+kL`
is short (possibly empty), the loop processes exactly those pages and
requests exactly those `k+1` offsets. -/
theorem runQueryLoop_pages_spec :
    ∀ (k : Nat) (pages : Nat → List NormRec) (ks : List (String × String × String))
      (since till : String) (fuel offset : Nat) (st : QStats),
      k < fuel →
      (∀ j, j < k → QUERY_LIMIT ≤ (pages (offset + j * QUERY_LIMIT)).length) →
      (pages (offset + k * QUERY_LIMIT)).length < QUERY_LIMIT →
      runQueryLoop pages ks since till fuel offset st =
        ((((List.range (k + 1)).map (fun j => pages (offset + j * QUERY_LIMIT))).flatten).foldl
            (reconStep ks since till) st,
          (List.range (k + 1)).map (fun j => offset + j * QUERY_LIMIT))
  | 0, pages, ks, since, till, fuel, offset, st, hk, _, hshort => by
      obtain ⟨f, rfl⟩ : ∃ f, fuel = f + 1 := ⟨fuel - 1, by omega⟩
      rw [runQueryLoop_succ]
      simp only [Nat.zero_mul, Nat.add_zero] at hshort
      rw [List.range_succ_eq_map, List.range_zero]
      simp only [List.map_nil, List.map_cons, List.flatten_cons, List.flatten_nil,
        List.append_nil, Nat.zero_mul, Nat.add_zero]
      by_cases he : (pages offset).isEmpty
      · rw [if_pos he]
        rw [List.isEmpty_iff] at he
        rw [he]
        rfl
      · rw [if_neg he, if_pos hshort]
  | k + 1, pages, ks, since, till, fuel, offset, st, hk, hfull, hshort => by
      obtain ⟨f, rfl⟩ : ∃ f, fuel = f + 1 := ⟨fuel - 1, by omega⟩
      rw [runQueryLoop_succ]
      have hfull0 : QUERY_LIMIT ≤ (pages offset).length := by
        have := hfull 0 (Nat.succ_pos k)
        simpa using this
      have hne : ¬((pages offset).isEmpty = true) := by
        rw [List.isEmpty_iff]
        intro hnil
        rw [hnil] at hfull0
        simp [QUERY_LIMIT] at hfull0
      have hnl : ¬((pages offset).length < QUERY_LIMIT) := Nat.not_lt.mpr hfull0
      rw [if_neg hne, if_neg hnl]
      have ih := runQueryLoop_pages_spec k pages ks since till f (offset + QUERY_LIMIT)
        ((pages offset).foldl (reconStep ks since till) st)
        (by omega)
        (fun j hj => by
          have hj1 := hfull (j + 1) (by omega)
          have harith : offset + (j + 1) * QUERY_LIMIT =
              offset + QUERY_LIMIT + j * QUERY_LIMIT := by ring
          rwa [harith] at hj1)
        (by
          have harith : offset + (k + 1) * QUERY_LIMIT =
              offset + QUERY_LIMIT + k * QUERY_LIMIT := by ring
          rwa [harith] at hshort)
      rw [ih]
      have hr2 : List.range (k + 1 + 1) = 0 :: (List.range (k + 1)).map Nat.succ :=
        List.range_succ_eq_map (k + 1)
      rw [hr2]
      have hcomp : ((fun j => pages (offset + j * QUERY_LIMIT)) ∘ Nat.succ) =
          (fun j => pages (offset + QUERY_LIMIT + j * QUERY_LIMIT)) :=
        funext fun j => congrArg pages (by
          show offset + (j + 1) * QUERY_LIMIT = offset + QUERY_LIMIT + j * QUERY_LIMIT
          ring)
      have hcomp2 : ((fun j => offset + j * QUERY_LIMIT) ∘ Nat.succ) =
          (fun j => offset + QUERY_LIMIT + j * QUERY_LIMIT) :=
        funext fun j => by
          show offset + (j + 1) * QUERY_LIMIT = offset + QUERY_LIMIT + j * QUERY_LIMIT
          ring
      simp only [List.map_cons, List.map_map, hcomp, hcomp2, List.flatten_cons,
        List.foldl_append, Nat.zero_mul, Nat.add_zero]

/-- Claim C6.  With page `k` the first one shorter than `QUERY_LIMIT`
(an empty page included), the paginator requests exactly the offsets
`0, L, 2L, …, kL`: it stops after the first short page, never requests a
further offset, and after every full page the offset advances by exactly
the page size. -/
theorem c6_pagination_stops_at_short_page
    (pages : Nat → List NormRec) (ks : List (String × String × String))
    (since till : String) (fuel k : Nat)
    (hk : k < fuel)
    (hfull : ∀ j, j < k → QUERY_LIMIT ≤ (pages (j * QUERY_LIMIT)).length)
    (hshort : (pages (k * QUERY_LIMIT)).length < QUERY_LIMIT) :
    (runQueryLoop pages ks since till fuel 0 initQStats).2 =
      (List.range (k + 1)).map (fun j => j * QUERY_LIMIT) := by
  have h := runQueryLoop_pages_spec k pages ks since till fuel 0 initQStats hk
    (fun j hj => by simpa using hfull j hj)
    (by simpa using hshort)
  rw [h]
  simp only [Nat.zero_add]

/-- Witness for `c6_pagination_stops_at_short_page`: an immediately empty
range requests only offset 0. -/
theorem c6_pagination_stops_at_short_page_witness :
    (runQueryLoop (fun _ => ([] : List NormRec)) [] "a" "b" 1 0 initQStats).2 = [0] := by
  have h := c6_pagination_stops_at_short_page (fun _ => ([] : List NormRec)) [] "a" "b" 1 0
    (by decide) (fun j hj => absurd hj (Nat.not_lt_zero j)) (by decide)
  simpa using h

/-- Claim C10.  If the payload fetched at offset `k·L` parses to no
records — because its shape is wrong, extraction raised, or no trade passed
the normalizer's guard — the run terminates exactly as if the range were
exhausted: the final statistics are those of the first `k` pages alone, the
offsets requested stop at `k·L`, and the (total) loop returns normally to
the summary. -/
theorem c10_malformed_page_terminates
    (rawPages : Nat → RawResult) (ks : List (String × String × String))
    (since till : String) (fuel k : Nat)
    (hk : k < fuel)
    (hfull : ∀ j, j < k →
      QUERY_LIMIT ≤ (parse_trades_from_result (rawPages (j * QUERY_LIMIT))).length)
    (hmal : parse_trades_from_result (rawPages (k * QUERY_LIMIT)) = []) :
    runQueryLoop (fun o => parse_trades_from_result (rawPages o)) ks since till fuel 0 initQStats =
      ((((List.range k).map
            (fun j => parse_trades_from_result (rawPages (j * QUERY_LIMIT)))).flatten).foldl
          (reconStep ks since till) initQStats,
        (List.range (k + 1)).map (fun j => j * QUERY_LIMIT)) := by
  have h := runQueryLoop_pages_spec k (fun o => parse_trades_from_result (rawPages o))
      ks since till fuel 0 initQStats hk
      (fun j hj => by simpa using hfull j hj)
      (by simpa [hmal] using (by decide : (0 : Nat) < QUERY_LIMIT))
  rw [h]
  rw [List.range_succ]
  simp only [List.map_append, List.map_cons, List.map_nil, List.flatten_append,
    List.flatten_cons, List.flatten_nil, List.append_nil, Nat.zero_add, hmal]

/-- Witness for `c10_malformed_page_terminates`: a payload whose
`"payload"` envelope is a bare string makes `.get("data")` raise inside the
normalizer (`AttributeError`), which parses to `[]` and stops the run at
offset 0 with untouched statistics. -/
theorem c10_malformed_page_terminates_witness :
    parse_trades_from_result (RawResult.plain (PyVal.dict [("payload", PyVal.str "boom")])) = [] ∧
    runQueryLoop
      (fun o => parse_trades_from_result
        ((fun _ => RawResult.plain (PyVal.dict [("payload", PyVal.str "boom")])) o))
      [] "a" "b" 1 0 initQStats = (initQStats, [0]) := by
  refine ⟨rfl, ?_⟩
  have h := c10_malformed_page_terminates
    (fun _ => RawResult.plain (PyVal.dict [("payload", PyVal.str "boom")])) [] "a" "b" 1 0
    (by decide) (fun j hj => absurd hj (Nat.not_lt_zero j)) rfl
  simpa using h

/-- Claim C9.  After any sequence of accepted records, `count` equals the
number of records accepted (and one CSV row was written per record), and
`min_time` / `max_time` are exactly the least and greatest blocktime written
so far under the string order (`none` only before the first record). -/
theorem c9_stream_state_min_max_count (l : List (String × String × Int × Int)) :
    (collect_stream l).count = l.length ∧
    (collect_stream l).csv_rows.length = l.length ∧
    (l = [] → (collect_stream l).min_time = Option.none ∧
      (collect_stream l).max_time = Option.none) ∧
    (l ≠ [] → ∃ m M, (collect_stream l).min_time = some m ∧
      (collect_stream l).max_time = some M ∧
      m ∈ l.map (fun a => a.1) ∧ M ∈ l.map (fun a => a.1) ∧
      ∀ b ∈ l.map (fun a => a.1), m ≤ b ∧ b ≤ M) := by
  induction l using List.reverseRecOn with
  | nil => exact ⟨rfl, rfl, fun _ => ⟨rfl, rfl⟩, fun h => absurd rfl h⟩
  | append_singleton xs a ih =>
    have hstep : collect_stream (xs ++ [a]) =
        write_trade (collect_stream xs) a.1 a.2.1 a.2.2.1 a.2.2.2 := by
      unfold collect_stream
      rw [List.foldl_append]
      rfl
    have hcount : (write_trade (collect_stream xs) a.1 a.2.1 a.2.2.1 a.2.2.2).count =
        (collect_stream xs).count + 1 := rfl
    have hrows : (write_trade (collect_stream xs) a.1 a.2.1 a.2.2.1 a.2.2.2).csv_rows.length =
        (collect_stream xs).csv_rows.length + 1 := by
      unfold write_trade
      simp
    refine ⟨?_, ?_, fun h => absurd h (by simp), fun _ => ?_⟩
    · rw [hstep, hcount, ih.1]
      simp
    · rw [hstep, hrows, ih.2.1]
      simp
    · rcases eq_or_ne xs [] with hxs | hxs
      · subst hxs
        refine ⟨a.1, a.1, ?_, ?_, by simp, by simp, ?_⟩
        · rw [hstep]; rfl
        · rw [hstep]; rfl
        · intro b hb
          simp only [List.nil_append, List.map_cons, List.map_nil,
            List.mem_singleton] at hb
          subst hb
          exact ⟨le_refl _, le_refl _⟩
      · obtain ⟨m, M, hmin, hmax, hmmem, hMmem, hbound⟩ := ih.2.2.2 hxs
        have hmapp : (xs ++ [a]).map (fun x => x.1) =
            xs.map (fun x => x.1) ++ [a.1] := by simp
        have hminEq : (write_trade (collect_stream xs) a.1 a.2.1 a.2.2.1 a.2.2.2).min_time =
            (if a.1 < m then some a.1 else some m) := by
          unfold write_trade
          simp only [hmin]
        have hmaxEq : (write_trade (collect_stream xs) a.1 a.2.1 a.2.2.1 a.2.2.2).max_time =
            (if M < a.1 then some a.1 else some M) := by
          unfold write_trade
          simp only [hmax]
        by_cases hlt : a.1 < m
        · by_cases hgt : M < a.1
          · exact absurd (lt_trans (lt_of_lt_of_le hlt (hbound m hmmem).2) hgt)
              (lt_irrefl _)
          · refine ⟨a.1, M, ?_, ?_, ?_, ?_, ?_⟩
            · rw [hstep, hminEq, if_pos hlt]
            · rw [hstep, hmaxEq, if_neg hgt]
            · rw [hmapp]; exact List.mem_append_right _ (List.mem_singleton.mpr rfl)
            · rw [hmapp]; exact List.mem_append_left _ hMmem
            · intro b hb
              rw [hmapp] at hb
              rcases List.mem_append.mp hb with hb | hb
              · exact ⟨le_trans (le_of_lt hlt) (hbound b hb).1, (hbound b hb).2⟩
              · rw [List.mem_singleton.mp hb]
                exact ⟨le_refl _, le_of_not_lt hgt⟩
        · by_cases hgt : M < a.1
          · refine ⟨m, a.1, ?_, ?_, ?_, ?_, ?_⟩
            · rw [hstep, hminEq, if_neg hlt]
            · rw [hstep, hmaxEq, if_pos hgt]
            · rw [hmapp]; exact List.mem_append_left _ hmmem
            · rw [hmapp]; exact List.mem_append_right _ (List.mem_singleton.mpr rfl)
            · intro b hb
              rw [hmapp] at hb
              rcases List.mem_append.mp hb with hb | hb
              · exact ⟨(hbound b hb).1, le_trans (hbound b hb).2 (le_of_lt hgt)⟩
              · rw [List.mem_singleton.mp hb]
                exact ⟨le_of_not_lt hlt, le_refl _⟩
          · refine ⟨m, M, ?_, ?_, ?_, ?_, ?_⟩
            · rw [hstep, hminEq, if_neg hlt]
            · rw [hstep, hmaxEq, if_neg hgt]
            · rw [hmapp]; exact List.mem_append_left _ hmmem
            · rw [hmapp]; exact List.mem_append_left _ hMmem
            · intro b hb
              rw [hmapp] at hb
              rcases List.mem_append.mp hb with hb | hb
              · exact hbound b hb
              · rw [List.mem_singleton.mp hb]
                exact ⟨le_of_not_lt hlt, le_of_not_lt hgt⟩

/-- Witness for `c9_stream_state_min_max_count` on two concrete records
arriving out of time order. -/
theorem c9_stream_state_min_max_count_witness :
    (collect_stream [("2024-01-01T00:00:07", "A", (0 : Int), (0 : Int)),
        ("2024-01-01T00:00:05", "B", (1 : Int), (2 : Int))]).count = 2 ∧
    (∃ m M,
      (collect_stream [("2024-01-01T00:00:07", "A", (0 : Int), (0 : Int)),
          ("2024-01-01T00:00:05", "B", (1 : Int), (2 : Int))]).min_time = some m ∧
      (collect_stream [("2024-01-01T00:00:07", "A", (0 : Int), (0 : Int)),
          ("2024-01-01T00:00:05", "B", (1 : Int), (2 : Int))]).max_time = some M ∧
      m ∈ [("2024-01-01T00:00:07", "A", (0 : Int), (0 : Int)),
          ("2024-01-01T00:00:05", "B", (1 : Int), (2 : Int))].map (fun a => a.1) ∧
      M ∈ [("2024-01-01T00:00:07", "A", (0 : Int), (0 : Int)),
          ("2024-01-01T00:00:05", "B", (1 : Int), (2 : Int))].map (fun a => a.1) ∧
      ∀ b ∈ [("2024-01-01T00:00:07", "A", (0 : Int), (0 : Int)),
          ("2024-01-01T00:00:05", "B", (1 : Int), (2 : Int))].map (fun a => a.1),
        m ≤ b ∧ b ≤ M) := by
  have h := c9_stream_state_min_max_count
    [("2024-01-01T00:00:07", "A", (0 : Int), (0 : Int)),
     ("2024-01-01T00:00:05", "B", (1 : Int), (2 : Int))]
  exact ⟨h.1, h.2.2.2 (by simp)⟩

end StreamCompare
